import Mathlib

/-!
# A verification development for `server/server.go`

The download server keeps a map from URL to fetched page, two channels of
pending work (paying and non-paying customers), and a worker loop that
receives from the channels, downloads with retry, stores the page in the map
and writes it to a file under `cache/`.

Modelling conventions.

* Go strings are modelled as Lean strings.  The only string operation that
  looks inside a string is the replacer of `saveWebpage`, which substitutes
  single ASCII bytes; on such input a byte-wise and a character-wise
  substitution agree.
* A `time.Time` is an integer number of nanoseconds; a `time.Duration` is a
  64-bit count of nanoseconds and `Time.Sub` saturates at its bounds.
* Clock readings, the HTTP transport and the outcome of file system calls
  belong to the environment and are passed in explicitly.
* The unbuffered channels are modelled by the list of values whose senders
  are blocked on the channel, oldest first.
-/

namespace Server

/-! ## Data model -/

/-- The struct `Cache`: the HTML of a page and the time it was last requested. -/
structure Cache where
  HTML : String
  Timestamp : Int
deriving DecidableEq, Repr

/-- The struct `PriorityWorker`: a URL, a retry limit and the paying flag. -/
structure PriorityWorker where
  URL : String
  RetryLimit : Int
  CustomerPaying : Bool
deriving DecidableEq, Repr

/-- A Go `map[string]Cache`. -/
abbrev CacheMap := String → Option Cache

/-- The map read `c, ok := m[k]`: a missing key gives the zero value and `false`. -/
def CacheMap.lookup (m : CacheMap) (k : String) : Cache × Bool :=
  match m k with
  | some c => (c, true)
  | none => (⟨"", 0⟩, false)

/-- The map write `m[k] = v`. -/
def CacheMap.store (m : CacheMap) (k : String) (v : Cache) : CacheMap :=
  fun j => if j = k then some v else m j

/-- The two work channels. -/
inductive Lane where
  | paying
  | nonPaying
deriving DecidableEq, Repr

/-- A call made to the file system. -/
inductive FsCall where
  | create (path : String)
  | write (path : String) (data : String)
deriving DecidableEq, Repr

/-- The files on disk and the calls made so far. -/
structure FileSystem where
  files : String → Option String
  calls : List FsCall

/-- What the server prints on standard output. -/
inductive Printed where
  | line (msg : String)
  | served (paying : Bool) (elapsed : Int)
deriving DecidableEq, Repr

/-- The state of the server process. -/
structure World where
  cache : CacheMap
  PayingWorkQueue : List PriorityWorker
  NonPayingWorkQueue : List PriorityWorker
  fs : FileSystem
  httpGets : Nat
  stdout : List Printed

/-- The outcome of one `http.Get` followed by `ioutil.ReadAll`. -/
inductive Attempt where
  | getErr (e : String)
  | readErr (e : String)
  | ok (body : String)
deriving DecidableEq, Repr

/-- The transport: the outcome of the `n`-th `http.Get` of the process for a URL. -/
abbrev Transport := Nat → String → Attempt

/-- The file system's answers: `createErr path` is the error of `os.Create`,
`writeErr path data` is the number of bytes written and the error of
`io.WriteString`; `none` means success. -/
structure FsEnv where
  createErr : String → Option String
  writeErr : String → String → Option (Nat × String)

/-- The environment of the server. -/
structure Env where
  transport : Transport
  fsEnv : FsEnv

/-! ## Time -/

/-- The constant `time.Hour`, in nanoseconds. -/
def Hour : Int := 3600000000000

/-- The largest `time.Duration`. -/
def maxDuration : Int := 2 ^ 63 - 1

/-- The smallest `time.Duration`. -/
def minDuration : Int := -(2 ^ 63)

/-- The method `Time.Sub`: the difference `t - u`, saturated to a `Duration`. -/
def timeSub (t u : Int) : Int :=
  if t - u > maxDuration then maxDuration
  else if t - u < minDuration then minDuration
  else t - u

/-! ## `downloadHandler` -/

/-- The channel send `workQueue <- worker`. -/
def chanSend (w : World) (workQueue : Lane) (worker : PriorityWorker) : World :=
  match workQueue with
  | Lane.paying => { w with PayingWorkQueue := w.PayingWorkQueue ++ [worker] }
  | Lane.nonPaying => { w with NonPayingWorkQueue := w.NonPayingWorkQueue ++ [worker] }

/-- The handler of `/download`.  `retryLimitParsed` and `customerPaying` are
the results of `strconv.Atoi` and `strconv.ParseBool` on the query
parameters; `since` is the clock read by `time.Since` and `now` the clock
read by `time.Now`.  Returns the new state and the payloads written to the
response. -/
def downloadHandler (w : World) (url : String) (retryLimitParsed : Int)
    (customerPaying : Bool) (since now : Int) : World × List String :=
  let retryLimit := if retryLimitParsed > 10 then 10 else retryLimitParsed
  let (c, ok) := w.cache.lookup url
  if ok && decide (timeSub since c.Timestamp < 24 * Hour) then
    -- `c` is a copy of the map's value: the assignment changes the copy only
    let c := { c with Timestamp := now }
    (w, [c.HTML])
  else
    let worker : PriorityWorker :=
      { URL := url, RetryLimit := retryLimit, CustomerPaying := customerPaying }
    let workQueue := if customerPaying then Lane.paying else Lane.nonPaying
    (chanSend w workQueue worker, [])

/-! ## `downloadWebpage` -/

/-- The loop of `downloadWebpage`, entered with `retries` retries used and
`calls` requests made so far.  Returns the result and the number of requests
made. -/
def downloadLoop (tr : Transport) (url : String) (retryLimit : Int)
    (retries : Int) (calls : Nat) : Except String String × Nat :=
  match tr calls url with
  | Attempt.getErr err =>
    if retries < retryLimit then
      downloadLoop tr url retryLimit (retries + 1) (calls + 1)
    else
      (Except.error ("error downloading webpage: " ++ err), calls + 1)
  | Attempt.readErr err =>
    if retries < retryLimit then
      downloadLoop tr url retryLimit (retries + 1) (calls + 1)
    else
      (Except.error ("error reading webpage body: " ++ err), calls + 1)
  | Attempt.ok html => (Except.ok html, calls + 1)
termination_by (retryLimit - retries).toNat
decreasing_by
  all_goals simp_wf
  all_goals omega

/-- The function `downloadWebpage`. -/
def downloadWebpage (tr : Transport) (calls : Nat) (url : String)
    (retryLimit : Int) : Except String String × Nat :=
  downloadLoop tr url retryLimit 0 calls

/-! ## `saveWebpage` -/

/-- The replacer `strings.NewReplacer("/", "_", ":", "^")` on one character. -/
def replaceChar (c : Char) : Char :=
  if c = '/' then '_' else if c = ':' then '^' else c

/-- The call `replacer.Replace(url)`. -/
def replacerReplace (url : String) : String :=
  ⟨url.data.map replaceChar⟩

/-- The path given to `os.Create`. -/
def savePath (url : String) : String :=
  let updatedURL := replacerReplace url
  "cache/" ++ (updatedURL ++ ".html")

/-- The assignment of a file's contents. -/
def setFile (files : String → Option String) (path : String) (data : String) :
    String → Option String :=
  fun p => if p = path then some data else files p

/-- The function `saveWebpage`: returns the error (`none` for `nil`) and the
file system afterwards. -/
def saveWebpage (fe : FsEnv) (fs : FileSystem) (html url : String) :
    Option String × FileSystem :=
  let path := savePath url
  match fe.createErr path with
  | some err =>
    (some ("error creating file: " ++ err),
      { fs with calls := fs.calls ++ [FsCall.create path] })
  | none =>
    -- `os.Create` creates the file or truncates it
    let fs1 : FileSystem :=
      { files := setFile fs.files path "", calls := fs.calls ++ [FsCall.create path] }
    match fe.writeErr path html with
    | some (n, err) =>
      (some ("error writing to file: " ++ err),
        { files := setFile fs1.files path (html.take n),
          calls := fs1.calls ++ [FsCall.write path html] })
    | none =>
      (none,
        { files := setFile fs1.files path html,
          calls := fs1.calls ++ [FsCall.write path html] })

/-! ## `handleWorker` and `workerPipeline` -/

/-- The function `handleWorker`.  `start`, `stored` and `finish` are the three
clock readings, in the order of the source. -/
def handleWorker (env : Env) (w : World) (worker : PriorityWorker)
    (start stored finish : Int) : World :=
  let (res, calls) := downloadWebpage env.transport w.httpGets worker.URL worker.RetryLimit
  let w := { w with httpGets := calls }
  match res with
  | Except.error err => { w with stdout := w.stdout ++ [Printed.line err] }
  | Except.ok html =>
    let w := { w with cache := w.cache.store worker.URL ⟨html, stored⟩ }
    let (err, fs) := saveWebpage env.fsEnv w.fs html worker.URL
    let w := { w with fs := fs }
    match err with
    | some e => { w with stdout := w.stdout ++ [Printed.line e] }
    | none =>
      let elapsed := timeSub finish start
      { w with stdout := w.stdout ++ [Printed.served worker.CustomerPaying elapsed] }

/-- The cases of the `select` in `workerPipeline` that can proceed. -/
def readyCases (w : World) : List Lane :=
  (if w.PayingWorkQueue = [] then [] else [Lane.paying]) ++
  (if w.NonPayingWorkQueue = [] then [] else [Lane.nonPaying])

/-- The receive of the `select` case `chosen`: the value received and the
state afterwards, or `none` when that case cannot proceed. -/
def selectRecv (w : World) (chosen : Lane) : Option (PriorityWorker × World) :=
  match chosen with
  | Lane.paying =>
    match w.PayingWorkQueue with
    | worker :: rest => some (worker, { w with PayingWorkQueue := rest })
    | [] => none
  | Lane.nonPaying =>
    match w.NonPayingWorkQueue with
    | worker :: rest => some (worker, { w with NonPayingWorkQueue := rest })
    | [] => none

/-- One iteration of the loop of `workerPipeline`.  Go's `select` takes one of
the cases that can proceed, chosen by the runtime; `chosen` is that choice. -/
def workerPipelineStep (env : Env) (w : World) (chosen : Lane)
    (start stored finish : Int) : Option World :=
  match selectRecv w chosen with
  | some (worker, w1) => some (handleWorker env w1 worker start stored finish)
  | none => none

/-! ## Concrete states and environments used in the examples -/

/-- The state at start-up: an empty map, nothing pending, no file. -/
def World.init : World :=
  { cache := fun _ => none
    PayingWorkQueue := []
    NonPayingWorkQueue := []
    fs := { files := fun _ => none, calls := [] }
    httpGets := 0
    stdout := [] }

/-- A state whose map holds the page `X` for `http://a.com`, stored at time 0. -/
def World.warm : World :=
  { World.init with cache := World.init.cache.store "http://a.com" ⟨"X", 0⟩ }

/-- A state in which one item is ready on each channel. -/
def World.busy : World :=
  { World.init with
    PayingWorkQueue := [{ URL := "http://p.com", RetryLimit := 0, CustomerPaying := true }]
    NonPayingWorkQueue := [{ URL := "http://q.com", RetryLimit := 0, CustomerPaying := false }] }

/-- Whether an attempt failed. -/
def Attempt.failed : Attempt → Bool
  | Attempt.ok _ => false
  | _ => true

/-- A transport that refuses the first request, breaks the body of the
second, refuses the third and then answers with body `X`. -/
def failThrice : Transport :=
  fun n _ =>
    if n = 0 then Attempt.getErr "refused"
    else if n = 1 then Attempt.readErr "reset"
    else if n = 2 then Attempt.getErr "refused"
    else Attempt.ok "X"

/-- A transport that fails twice and then answers with body `X`. -/
def failTwice : Transport :=
  fun n _ =>
    if n = 0 then Attempt.getErr "refused"
    else if n = 1 then Attempt.readErr "reset"
    else Attempt.ok "X"

/-- A transport that never answers. -/
def failAlways : Transport :=
  fun n _ => if n % 2 = 0 then Attempt.getErr "refused" else Attempt.readErr "reset"

/-- A file system on which every call succeeds. -/
def fsHealthy : FsEnv :=
  { createErr := fun _ => none, writeErr := fun _ _ => none }

/-- A file system on which no file can be created. -/
def fsReadOnly : FsEnv :=
  { createErr := fun _ => some "read-only file system", writeErr := fun _ _ => none }

/-! ## Lemmas on time -/

theorem timeSub_lt_day (t u : Int) : timeSub t u < 24 * Hour ↔ t - u < 24 * Hour := by
  unfold timeSub maxDuration minDuration Hour
  norm_num
  split_ifs <;> omega

/-! ## Lemmas on `downloadHandler` -/

/-- The freshness test of the handler, as a proposition on the map. -/
theorem lookup_fresh_iff (m : CacheMap) (url : String) (since : Int) :
    ((m.lookup url).2 && decide (timeSub since (m.lookup url).1.Timestamp < 24 * Hour)) = true
      ↔ ∃ c, m url = some c ∧ since - c.Timestamp < 24 * Hour := by
  unfold CacheMap.lookup
  cases h : m url with
  | none => simp
  | some c => simp [timeSub_lt_day]

theorem downloadHandler_hit (w : World) (url : String) (n : Int) (paying : Bool)
    (since now : Int) (c : Cache) (hc : w.cache url = some c)
    (hf : since - c.Timestamp < 24 * Hour) :
    downloadHandler w url n paying since now = (w, [c.HTML]) := by
  have h := (lookup_fresh_iff w.cache url since).2 ⟨c, hc, hf⟩
  have hl : w.cache.lookup url = (c, true) := by simp [CacheMap.lookup, hc]
  simp only [downloadHandler]
  rw [hl] at h ⊢
  simp only [h, if_true]

theorem downloadHandler_miss (w : World) (url : String) (n : Int) (paying : Bool)
    (since now : Int)
    (hm : ¬ ∃ c, w.cache url = some c ∧ since - c.Timestamp < 24 * Hour) :
    downloadHandler w url n paying since now =
      (chanSend w (if paying then Lane.paying else Lane.nonPaying)
        { URL := url, RetryLimit := min n 10, CustomerPaying := paying }, []) := by
  have h := (lookup_fresh_iff w.cache url since).not.2 hm
  have h10 : (if n > 10 then 10 else n) = min n 10 := by
    split_ifs <;> omega
  simp only [downloadHandler]
  rw [if_neg h, h10]

theorem chanSend_pending (w : World) (lane : Lane) (worker : PriorityWorker) :
    (chanSend w lane worker).PayingWorkQueue.length
        + (chanSend w lane worker).NonPayingWorkQueue.length
      = w.PayingWorkQueue.length + w.NonPayingWorkQueue.length + 1 := by
  cases lane <;> simp [chanSend] <;> omega

/-! ## Lemmas on `downloadWebpage` -/

theorem downloadLoop_success (tr : Transport) (url : String) (limit : Int) (body : String) :
    ∀ (j : Nat) (retries : Int) (calls : Nat),
      retries + j ≤ limit →
      (∀ i, i < j → (tr (calls + i) url).failed = true) →
      tr (calls + j) url = Attempt.ok body →
      downloadLoop tr url limit retries calls = (Except.ok body, calls + j + 1) := by
  intro j
  induction j with
  | zero =>
    intro retries calls _ _ hok
    rw [downloadLoop]
    simp only [Nat.add_zero] at hok
    simp [hok]
  | succ j ih =>
    intro retries calls hle hfail hok
    have h0 := hfail 0 (Nat.succ_pos j)
    have hlt : retries < limit := by push_cast at hle; omega
    have hrec : downloadLoop tr url limit (retries + 1) (calls + 1)
        = (Except.ok body, calls + (j + 1) + 1) := by
      have := ih (retries + 1) (calls + 1) (by push_cast at hle; omega)
        (fun i hi => by
          have := hfail (i + 1) (by omega)
          rwa [show calls + 1 + i = calls + (i + 1) by omega])
        (by rwa [show calls + 1 + j = calls + (j + 1) by omega])
      rw [this]
      congr 1
      omega
    rw [downloadLoop]
    simp only [Nat.add_zero] at h0
    cases hat : tr calls url with
    | ok b => rw [hat] at h0; simp [Attempt.failed] at h0
    | getErr e => simp only [hlt, if_true]; exact hrec
    | readErr e => simp only [hlt, if_true]; exact hrec

theorem downloadLoop_exhausted (tr : Transport) (url : String) (limit : Int) :
    ∀ (j : Nat) (retries : Int) (calls : Nat),
      (limit - retries).toNat = j →
      (∀ i, i ≤ j → (tr (calls + i) url).failed = true) →
      ∃ e, downloadLoop tr url limit retries calls = (Except.error e, calls + j + 1) := by
  intro j
  induction j with
  | zero =>
    intro retries calls hj hfail
    have h0 := hfail 0 (Nat.le_refl 0)
    have hge : ¬ retries < limit := by omega
    simp only [Nat.add_zero] at h0
    rw [downloadLoop]
    cases hat : tr calls url with
    | ok b => rw [hat] at h0; simp [Attempt.failed] at h0
    | getErr e => exact ⟨_, by simp only [hge, if_false]; rfl⟩
    | readErr e => exact ⟨_, by simp only [hge, if_false]; rfl⟩
  | succ j ih =>
    intro retries calls hj hfail
    have h0 := hfail 0 (Nat.zero_le _)
    have hlt : retries < limit := by omega
    obtain ⟨e, he⟩ := ih (retries + 1) (calls + 1) (by omega)
      (fun i hi => by
        have := hfail (i + 1) (by omega)
        rwa [show calls + 1 + i = calls + (i + 1) by omega])
    have hrec : downloadLoop tr url limit (retries + 1) (calls + 1)
        = (Except.error e, calls + (j + 1) + 1) := by
      rw [he]
      congr 1
      omega
    simp only [Nat.add_zero] at h0
    rw [downloadLoop]
    cases hat : tr calls url with
    | ok b => rw [hat] at h0; simp [Attempt.failed] at h0
    | getErr e1 => exact ⟨e, by simp only [hlt, if_true]; exact hrec⟩
    | readErr e1 => exact ⟨e, by simp only [hlt, if_true]; exact hrec⟩

/-- A retry limit below zero behaves like zero: one request, no retry. -/
theorem downloadWebpage_negative_limit (tr : Transport) (url : String) (limit : Int)
    (calls : Nat) (hneg : limit ≤ 0) :
    downloadWebpage tr calls url limit = downloadWebpage tr calls url 0 ∧
    (downloadWebpage tr calls url limit).2 = calls + 1 := by
  unfold downloadWebpage
  rw [downloadLoop, downloadLoop.eq_1 tr url 0 0 calls]
  have hge : ¬ (0 : Int) < limit := by omega
  cases tr calls url <;> simp [hge]

/-! ## The retry contract of `downloadWebpage` -/

/-- C1: for a retry limit `r ≥ 0`, when the first `r` requests fail (in
`http.Get` or in reading the body) and the next one succeeds,
`downloadWebpage` returns that body and no error after exactly `r + 1`
requests; when every request fails it returns an error after exactly `r + 1`
requests. -/
theorem downloadWebpage_retry (tr : Transport) (url : String) (r : Nat) (calls : Nat) :
    (∀ body, (∀ i, i < r → (tr (calls + i) url).failed = true) →
        tr (calls + r) url = Attempt.ok body →
        downloadWebpage tr calls url (r : Int) = (Except.ok body, calls + r + 1)) ∧
    ((∀ i, (tr (calls + i) url).failed = true) →
        ∃ e, downloadWebpage tr calls url (r : Int) = (Except.error e, calls + r + 1)) := by
  constructor
  · intro body hfail hok
    exact downloadLoop_success tr url r body r 0 calls (by simp) hfail hok
  · intro hfail
    exact downloadLoop_exhausted tr url r r 0 calls (by simp) (fun i _ => hfail i)

/-- C1, on a transport that fails three times before answering `X` and on
one that never answers, with retry limit 3. -/
theorem downloadWebpage_retry_witness :
    downloadWebpage failThrice 0 "A" ((3 : Nat) : Int) = (Except.ok "X", 0 + 3 + 1) ∧
    ∃ e, downloadWebpage failAlways 0 "A" ((3 : Nat) : Int) = (Except.error e, 0 + 3 + 1) :=
  ⟨(downloadWebpage_retry failThrice "A" 3 0).1 "X"
      (by intro i hi; interval_cases i <;> rfl) rfl,
   (downloadWebpage_retry failAlways "A" 3 0).2
      (by
        intro i
        unfold failAlways
        split_ifs <;> rfl)⟩

/-! ## The retry limit enqueued by `downloadHandler` -/

/-- C2, as stated, fails: a request with `retry_limit=-1` that misses the
cache enqueues a worker whose retry limit is `-1`, not `0`. -/
theorem downloadHandler_retryLimit_negative :
    (downloadHandler World.init "http://a.com" (-1) false 0 0).1.NonPayingWorkQueue
        = [{ URL := "http://a.com", RetryLimit := -1, CustomerPaying := false }] ∧
    (-1 : Int) ≠ min (max (-1) 0) 10 := by
  constructor
  · rfl
  · decide

/-- C2, amended: on a cache miss the handler enqueues one worker whose retry
limit is `min n 10`: never above 10, equal to `n` clamped to `[0, 10]` when
`n ≥ 0`, and `n` itself when `n < 0`. -/
theorem downloadHandler_retryLimit (w : World) (url : String) (n : Int) (paying : Bool)
    (since now : Int)
    (hmiss : ¬ ∃ c, w.cache url = some c ∧ since - c.Timestamp < 24 * Hour) :
    ∃ worker : PriorityWorker,
      (downloadHandler w url n paying since now).1
          = chanSend w (if paying then Lane.paying else Lane.nonPaying) worker ∧
      worker.URL = url ∧ worker.CustomerPaying = paying ∧
      worker.RetryLimit = min n 10 ∧
      worker.RetryLimit ≤ 10 ∧
      (0 ≤ n → worker.RetryLimit = min (max n 0) 10) ∧
      (n < 0 → worker.RetryLimit = n) := by
  refine ⟨{ URL := url, RetryLimit := min n 10, CustomerPaying := paying }, ?_, rfl, rfl, rfl,
    ?_, ?_, ?_⟩
  · rw [downloadHandler_miss w url n paying since now hmiss]
  · exact min_le_right n 10
  · intro h0
    show min n 10 = min (max n 0) 10
    rw [max_eq_left h0]
  · intro hn
    show min n 10 = n
    exact min_eq_left (by omega)

/-- C2 amended, on the empty cache with `retry_limit=25`: the worker gets 10. -/
theorem downloadHandler_retryLimit_witness :
    ∃ worker : PriorityWorker,
      (downloadHandler World.init "http://a.com" 25 true 0 0).1
          = chanSend World.init (if true then Lane.paying else Lane.nonPaying) worker ∧
      worker.URL = "http://a.com" ∧ worker.CustomerPaying = true ∧
      worker.RetryLimit = min 25 10 ∧
      worker.RetryLimit ≤ 10 ∧
      ((0 : Int) ≤ 25 → worker.RetryLimit = min (max 25 0) 10) ∧
      ((25 : Int) < 0 → worker.RetryLimit = 25) :=
  downloadHandler_retryLimit World.init "http://a.com" 25 true 0 0
    (by rintro ⟨c, hc, _⟩; simp [World.init] at hc)

/-! ## The cache check of `downloadHandler` -/

/-- C3: the handler serves from the cache (writes the stored payload and
enqueues nothing) exactly when the map has an entry for the URL whose age
`since - Timestamp` is below 24 hours; otherwise it writes nothing and
enqueues exactly one worker. -/
theorem downloadHandler_cache_check (w : World) (url : String) (n : Int) (paying : Bool)
    (since now : Int) :
    ((∃ c, w.cache url = some c ∧
        (downloadHandler w url n paying since now).2 = [c.HTML] ∧
        (downloadHandler w url n paying since now).1.PayingWorkQueue = w.PayingWorkQueue ∧
        (downloadHandler w url n paying since now).1.NonPayingWorkQueue
          = w.NonPayingWorkQueue)
      ↔ ∃ c, w.cache url = some c ∧ since - c.Timestamp < 24 * Hour) ∧
    ((¬ ∃ c, w.cache url = some c ∧ since - c.Timestamp < 24 * Hour) →
      (downloadHandler w url n paying since now).2 = [] ∧
      (∃ worker : PriorityWorker, worker.URL = url ∧
        (downloadHandler w url n paying since now).1
          = chanSend w (if paying then Lane.paying else Lane.nonPaying) worker) ∧
      (downloadHandler w url n paying since now).1.PayingWorkQueue.length
          + (downloadHandler w url n paying since now).1.NonPayingWorkQueue.length
        = w.PayingWorkQueue.length + w.NonPayingWorkQueue.length + 1) := by
  constructor
  · constructor
    · rintro ⟨c, hc, hw, _, _⟩
      by_contra hm
      rw [downloadHandler_miss w url n paying since now hm] at hw
      simp at hw
    · rintro ⟨c, hc, hf⟩
      refine ⟨c, hc, ?_⟩
      rw [downloadHandler_hit w url n paying since now c hc hf]
      exact ⟨rfl, rfl, rfl⟩
  · intro hm
    rw [downloadHandler_miss w url n paying since now hm]
    exact ⟨rfl, ⟨_, rfl, rfl⟩, chanSend_pending _ _ _⟩

/-- C3, on the warm state one hour after the store, where the page is
served, and on the empty cache, where nothing is written and one worker is
pending. -/
theorem downloadHandler_cache_check_witness :
    (∃ c, World.warm.cache "http://a.com" = some c ∧
      (downloadHandler World.warm "http://a.com" 3 true Hour Hour).2 = [c.HTML] ∧
      (downloadHandler World.warm "http://a.com" 3 true Hour Hour).1.PayingWorkQueue
        = World.warm.PayingWorkQueue ∧
      (downloadHandler World.warm "http://a.com" 3 true Hour Hour).1.NonPayingWorkQueue
        = World.warm.NonPayingWorkQueue) ∧
    (downloadHandler World.init "http://a.com" 3 true 0 0).2 = [] ∧
    (∃ worker : PriorityWorker, worker.URL = "http://a.com" ∧
      (downloadHandler World.init "http://a.com" 3 true 0 0).1
        = chanSend World.init (if true then Lane.paying else Lane.nonPaying) worker) ∧
    (downloadHandler World.init "http://a.com" 3 true 0 0).1.PayingWorkQueue.length
        + (downloadHandler World.init "http://a.com" 3 true 0 0).1.NonPayingWorkQueue.length
      = World.init.PayingWorkQueue.length + World.init.NonPayingWorkQueue.length + 1 :=
  ⟨(downloadHandler_cache_check World.warm "http://a.com" 3 true Hour Hour).1.2
      ⟨⟨"X", 0⟩, rfl, by decide⟩,
   (downloadHandler_cache_check World.init "http://a.com" 3 true 0 0).2
      (by rintro ⟨c, hc, _⟩; simp [World.init] at hc)⟩

/-! ## The timestamp of an entry served from the cache -/

/-- The handler never writes to the map. -/
theorem downloadHandler_cache_unchanged (w : World) (url : String) (n : Int) (paying : Bool)
    (since now : Int) : (downloadHandler w url n paying since now).1.cache = w.cache := by
  by_cases hf : ∃ c, w.cache url = some c ∧ since - c.Timestamp < 24 * Hour
  · obtain ⟨c, hc, hlt⟩ := hf
    rw [downloadHandler_hit w url n paying since now c hc hlt]
  · rw [downloadHandler_miss w url n paying since now hf]
    cases paying <;> rfl

/-- C4 fails on the code: the page stored at time 0 is served at time 1h,
yet the entry keeps timestamp 0 (the handler updates a copy of the entry),
and a request at time 24h, 23 hours after that hit, misses the cache: it
writes nothing and enqueues a worker. -/
theorem downloadHandler_hit_keeps_timestamp :
    (downloadHandler World.warm "http://a.com" 0 false Hour Hour).2 = ["X"] ∧
    (downloadHandler World.warm "http://a.com" 0 false Hour Hour).1.cache "http://a.com"
      = some ⟨"X", 0⟩ ∧
    24 * Hour - Hour < 24 * Hour ∧
    (downloadHandler (downloadHandler World.warm "http://a.com" 0 false Hour Hour).1
        "http://a.com" 0 false (24 * Hour) (24 * Hour)).2 = [] ∧
    (downloadHandler (downloadHandler World.warm "http://a.com" 0 false Hour Hour).1
        "http://a.com" 0 false (24 * Hour) (24 * Hour)).1.NonPayingWorkQueue
      = [{ URL := "http://a.com", RetryLimit := 0, CustomerPaying := false }] := by
  refine ⟨?_, ?_, ?_, ?_, ?_⟩
  · rfl
  · rfl
  · decide
  · rfl
  · rfl

/-! ## The `select` of `workerPipeline` -/

/-- A case of the `select` can proceed exactly when its receive yields a value. -/
theorem selectRecv_isSome_iff (w : World) (chosen : Lane) :
    (selectRecv w chosen).isSome = true ↔ chosen ∈ readyCases w := by
  cases chosen <;> cases hp : w.PayingWorkQueue <;> cases hq : w.NonPayingWorkQueue <;>
    simp [selectRecv, readyCases, hp, hq]

/-- C5, as stated, fails: with an item ready on both channels, taking the
non-paying case is a step of the worker, and it hands the non-paying item to
`handleWorker` while the paying item stays pending. -/
theorem select_may_take_nonPaying :
    World.busy.PayingWorkQueue ≠ [] ∧ World.busy.NonPayingWorkQueue ≠ [] ∧
    Lane.nonPaying ∈ readyCases World.busy ∧
    selectRecv World.busy Lane.nonPaying
      = some ({ URL := "http://q.com", RetryLimit := 0, CustomerPaying := false },
          { World.busy with NonPayingWorkQueue := [] }) ∧
    (workerPipelineStep ⟨failAlways, fsHealthy⟩ World.busy Lane.nonPaying 0 0 0).isSome
      = true := by
  refine ⟨?_, ?_, ?_, ?_, ?_⟩
  · simp [World.busy]
  · simp [World.busy]
  · simp [readyCases, World.busy]
  · rfl
  · simp [workerPipelineStep, selectRecv, World.busy]

/-- C5, amended: with an item ready on both channels, both cases of the
`select` can proceed; the item handed to `handleWorker` is the ready item of
the case taken, so it is the paying item or the non-paying item, and either
can be the one dequeued. -/
theorem select_both_ready (env : Env) (w : World) (p q : PriorityWorker)
    (ps qs : List PriorityWorker) (start stored finish : Int)
    (hp : w.PayingWorkQueue = p :: ps) (hq : w.NonPayingWorkQueue = q :: qs) :
    readyCases w = [Lane.paying, Lane.nonPaying] ∧
    workerPipelineStep env w Lane.paying start stored finish
      = some (handleWorker env { w with PayingWorkQueue := ps } p start stored finish) ∧
    workerPipelineStep env w Lane.nonPaying start stored finish
      = some (handleWorker env { w with NonPayingWorkQueue := qs } q start stored finish) ∧
    ∀ chosen worker w1, selectRecv w chosen = some (worker, w1) → worker = p ∨ worker = q := by
  refine ⟨?_, ?_, ?_, ?_⟩
  · simp [readyCases, hp, hq]
  · simp [workerPipelineStep, selectRecv, hp]
  · simp [workerPipelineStep, selectRecv, hq]
  · intro chosen worker w1 h
    cases chosen
    · left
      simp [selectRecv, hp] at h
      exact h.1.symm
    · right
      simp [selectRecv, hq] at h
      exact h.1.symm

/-- C5 amended, on the state with one item ready on each channel. -/
theorem select_both_ready_witness :
    readyCases World.busy = [Lane.paying, Lane.nonPaying] ∧
    workerPipelineStep ⟨failAlways, fsHealthy⟩ World.busy Lane.nonPaying 0 0 0
      = some (handleWorker ⟨failAlways, fsHealthy⟩ { World.busy with NonPayingWorkQueue := [] }
          { URL := "http://q.com", RetryLimit := 0, CustomerPaying := false } 0 0 0) :=
  ⟨(select_both_ready ⟨failAlways, fsHealthy⟩ World.busy _ _ [] [] 0 0 0 rfl rfl).1,
   (select_both_ready ⟨failAlways, fsHealthy⟩ World.busy _ _ [] [] 0 0 0 rfl rfl).2.2.1⟩

/-! ## Lemmas on `saveWebpage` and `handleWorker` -/

/-- Every call of `saveWebpage` starts with one `os.Create` of the URL's
path, followed by at most one write. -/
theorem saveWebpage_calls (fe : FsEnv) (fs : FileSystem) (html url : String) :
    (saveWebpage fe fs html url).2.calls = fs.calls ++ [FsCall.create (savePath url)] ∨
    (saveWebpage fe fs html url).2.calls
      = fs.calls ++ [FsCall.create (savePath url), FsCall.write (savePath url) html] := by
  cases hc : fe.createErr (savePath url) with
  | some e => left; simp [saveWebpage, hc]
  | none =>
    right
    cases hw : fe.writeErr (savePath url) html with
    | some r => simp [saveWebpage, hc, hw]
    | none => simp [saveWebpage, hc, hw]

/-- A file other than the one of the URL is left alone by `saveWebpage`. -/
theorem saveWebpage_other_file (fe : FsEnv) (fs : FileSystem) (html url path : String)
    (hne : path ≠ savePath url) :
    (saveWebpage fe fs html url).2.files path = fs.files path := by
  cases hc : fe.createErr (savePath url) with
  | some e => simp [saveWebpage, hc]
  | none =>
    cases hw : fe.writeErr (savePath url) html with
    | some r => simp [saveWebpage, hc, hw, setFile, hne]
    | none => simp [saveWebpage, hc, hw, setFile, hne]

theorem handleWorker_error (env : Env) (w : World) (worker : PriorityWorker)
    (start stored finish : Int) (e : String)
    (h : (downloadWebpage env.transport w.httpGets worker.URL worker.RetryLimit).1
      = Except.error e) :
    handleWorker env w worker start stored finish =
      { w with
        httpGets := (downloadWebpage env.transport w.httpGets worker.URL worker.RetryLimit).2
        stdout := w.stdout ++ [Printed.line e] } := by
  rcases hd : downloadWebpage env.transport w.httpGets worker.URL worker.RetryLimit
    with ⟨res, calls⟩
  rw [hd] at h
  simp only at h
  subst h
  simp only [handleWorker, hd]

theorem handleWorker_ok (env : Env) (w : World) (worker : PriorityWorker)
    (start stored finish : Int) (p : String)
    (h : (downloadWebpage env.transport w.httpGets worker.URL worker.RetryLimit).1
      = Except.ok p) :
    (handleWorker env w worker start stored finish).cache
        = w.cache.store worker.URL ⟨p, stored⟩ ∧
    (handleWorker env w worker start stored finish).fs
        = (saveWebpage env.fsEnv w.fs p worker.URL).2 ∧
    (handleWorker env w worker start stored finish).stdout
        = w.stdout ++ [match (saveWebpage env.fsEnv w.fs p worker.URL).1 with
            | some e => Printed.line e
            | none => Printed.served worker.CustomerPaying (timeSub finish start)] := by
  rcases hd : downloadWebpage env.transport w.httpGets worker.URL worker.RetryLimit
    with ⟨res, calls⟩
  rw [hd] at h
  simp only at h
  subst h
  rcases hs : saveWebpage env.fsEnv w.fs p worker.URL with ⟨err, fs⟩
  cases err <;> simp [handleWorker, hd, hs]

theorem store_same (m : CacheMap) (k : String) (v : Cache) : m.store k v k = some v := by
  simp [CacheMap.store]

theorem store_other (m : CacheMap) (k j : String) (v : Cache) (hne : j ≠ k) :
    m.store k v j = m j := by
  simp [CacheMap.store, hne]

/-! ## A fetched page is served from the cache -/

/-- C6: after `handleWorker` has run a worker whose download succeeded with
body `p`, storing at time `t`, the map holds the entry `(p, t)` for the
worker's URL, and a request for that URL at any time `since` with
`since - t < 24h` writes `p`, leaves the state as it is (nothing is enqueued)
and makes no HTTP request. -/
theorem handleWorker_then_served (env : Env) (w : World) (worker : PriorityWorker)
    (start t finish : Int) (p : String)
    (hok : (downloadWebpage env.transport w.httpGets worker.URL worker.RetryLimit).1
      = Except.ok p) :
    (handleWorker env w worker start t finish).cache worker.URL = some ⟨p, t⟩ ∧
    ∀ (n : Int) (paying : Bool) (since now : Int), since - t < 24 * Hour →
      downloadHandler (handleWorker env w worker start t finish) worker.URL n paying since now
        = (handleWorker env w worker start t finish, [p]) ∧
      (downloadHandler (handleWorker env w worker start t finish) worker.URL n paying
          since now).1.httpGets
        = (handleWorker env w worker start t finish).httpGets := by
  have hc : (handleWorker env w worker start t finish).cache worker.URL = some ⟨p, t⟩ := by
    rw [(handleWorker_ok env w worker start t finish p hok).1]
    exact store_same _ _ _
  refine ⟨hc, ?_⟩
  intro n paying since now hlt
  have hh := downloadHandler_hit (handleWorker env w worker start t finish) worker.URL n
    paying since now ⟨p, t⟩ hc hlt
  rw [hh]
  exact ⟨rfl, rfl⟩

/-- C6, on URL `A` with retry limit 3 and a transport that fails twice and
then answers `X`; the page is stored at time 5 and requested again at time 5. -/
theorem handleWorker_then_served_witness :
    (handleWorker ⟨failTwice, fsHealthy⟩ World.init ⟨"A", 3, true⟩ 0 5 9).cache "A"
      = some ⟨"X", 5⟩ ∧
    downloadHandler (handleWorker ⟨failTwice, fsHealthy⟩ World.init ⟨"A", 3, true⟩ 0 5 9)
        "A" 3 true 5 5
      = (handleWorker ⟨failTwice, fsHealthy⟩ World.init ⟨"A", 3, true⟩ 0 5 9, ["X"]) := by
  have hd : (downloadWebpage failTwice 0 "A" 3).1 = Except.ok "X" := by
    unfold downloadWebpage
    rw [downloadLoop_success failTwice "A" 3 "X" 2 0 0 (by norm_num)
      (by intro i hi; interval_cases i <;> rfl) rfl]
  have h := handleWorker_then_served ⟨failTwice, fsHealthy⟩ World.init ⟨"A", 3, true⟩ 0 5 9
    "X" hd
  exact ⟨h.1, (h.2 3 true 5 5 (by decide)).1⟩

/-! ## The file written by `saveWebpage` -/

/-- C7: when create and write succeed, `saveWebpage` returns no error and the
file `cache/<name>.html` holds exactly the payload, where `<name>` has the
length of the URL and at each position `_` for `/`, `^` for `:` and the URL's
own character otherwise; no other file changes. -/
theorem saveWebpage_writes_file (fe : FsEnv) (fs : FileSystem) (p u : String)
    (hc : fe.createErr (savePath u) = none) (hw : fe.writeErr (savePath u) p = none) :
    (saveWebpage fe fs p u).1 = none ∧
    (saveWebpage fe fs p u).2.files (savePath u) = some p ∧
    (∀ path, path ≠ savePath u → (saveWebpage fe fs p u).2.files path = fs.files path) ∧
    savePath u = "cache/" ++ (replacerReplace u ++ ".html") ∧
    (replacerReplace u).data.length = u.data.length ∧
    (∀ (i : Nat) (c : Char), u.data[i]? = some c →
      (replacerReplace u).data[i]?
        = some (if c = '/' then '_' else if c = ':' then '^' else c)) := by
  refine ⟨?_, ?_, ?_, rfl, ?_, ?_⟩
  · simp [saveWebpage, hc, hw]
  · simp [saveWebpage, hc, hw, setFile]
  · intro path hne
    exact saveWebpage_other_file fe fs p u path hne
  · simp [replacerReplace]
  · intro i c hi
    simp [replacerReplace, List.getElem?_map, hi, replaceChar]

/-- C7, on the URL `http://a.com/x:y`. -/
theorem saveWebpage_writes_file_witness :
    savePath "http://a.com/x:y" = "cache/http^__a.com_x^y.html" ∧
    (saveWebpage fsHealthy World.init.fs "<html>" "http://a.com/x:y").1 = none ∧
    (saveWebpage fsHealthy World.init.fs "<html>" "http://a.com/x:y").2.files
      "cache/http^__a.com_x^y.html" = some "<html>" := by
  have hp : savePath "http://a.com/x:y" = "cache/http^__a.com_x^y.html" := by decide
  have h := saveWebpage_writes_file fsHealthy World.init.fs "<html>" "http://a.com/x:y" rfl rfl
  refine ⟨hp, h.1, ?_⟩
  rw [← hp]
  exact h.2.1

/-! ## A failed download changes neither the map nor the disk -/

/-- C8: when `downloadWebpage` returns an error, `handleWorker` leaves the map
as it was and the file system as it was: no file is created or changed and no
file system call is made, so `saveWebpage` is not called. -/
theorem handleWorker_download_error (env : Env) (w : World) (worker : PriorityWorker)
    (start stored finish : Int) (e : String)
    (herr : (downloadWebpage env.transport w.httpGets worker.URL worker.RetryLimit).1
      = Except.error e) :
    (handleWorker env w worker start stored finish).cache = w.cache ∧
    (handleWorker env w worker start stored finish).fs.files = w.fs.files ∧
    (handleWorker env w worker start stored finish).fs.calls = w.fs.calls ∧
    (handleWorker env w worker start stored finish).stdout = w.stdout ++ [Printed.line e] := by
  rw [handleWorker_error env w worker start stored finish e herr]
  exact ⟨rfl, rfl, rfl, rfl⟩

/-- C8, on the warm state with a transport that never answers: the entry
stored before is still there and no file system call was made. -/
theorem handleWorker_download_error_witness :
    (handleWorker ⟨failAlways, fsHealthy⟩ World.warm ⟨"http://a.com", 3, false⟩ 1 2 3).cache
      = World.warm.cache ∧
    (handleWorker ⟨failAlways, fsHealthy⟩ World.warm ⟨"http://a.com", 3, false⟩ 1 2 3).fs.calls
      = [] := by
  obtain ⟨e, he⟩ := downloadLoop_exhausted failAlways "http://a.com" 3 3 0 0 rfl
    (by
      intro i _
      unfold failAlways
      split_ifs <;> rfl)
  have h := handleWorker_download_error ⟨failAlways, fsHealthy⟩ World.warm
    ⟨"http://a.com", 3, false⟩ 1 2 3 e
    (by
      show (downloadLoop failAlways "http://a.com" 3 0 0).1 = Except.error e
      rw [he])
  exact ⟨h.1, h.2.2.1⟩

/-! ## A failed save keeps the stored entry -/

/-- C9: when the download succeeds with body `p` and `saveWebpage` fails,
`handleWorker` leaves the entry `(p, stored)` in the map for the worker's
URL, the other entries as they were, and the file system as one call of
`saveWebpage` left it: exactly one `os.Create` was added to the calls, so
the save was tried once; the error is printed. -/
theorem handleWorker_save_error (env : Env) (w : World) (worker : PriorityWorker)
    (start stored finish : Int) (p e : String)
    (hok : (downloadWebpage env.transport w.httpGets worker.URL worker.RetryLimit).1
      = Except.ok p)
    (hsave : (saveWebpage env.fsEnv w.fs p worker.URL).1 = some e) :
    (handleWorker env w worker start stored finish).cache worker.URL = some ⟨p, stored⟩ ∧
    (∀ k, k ≠ worker.URL →
      (handleWorker env w worker start stored finish).cache k = w.cache k) ∧
    (handleWorker env w worker start stored finish).fs
      = (saveWebpage env.fsEnv w.fs p worker.URL).2 ∧
    ((handleWorker env w worker start stored finish).fs.calls
        = w.fs.calls ++ [FsCall.create (savePath worker.URL)] ∨
      (handleWorker env w worker start stored finish).fs.calls
        = w.fs.calls ++ [FsCall.create (savePath worker.URL),
            FsCall.write (savePath worker.URL) p]) ∧
    (handleWorker env w worker start stored finish).stdout
      = w.stdout ++ [Printed.line e] := by
  obtain ⟨hcache, hfs, hout⟩ := handleWorker_ok env w worker start stored finish p hok
  refine ⟨?_, ?_, hfs, ?_, ?_⟩
  · rw [hcache]
    exact store_same _ _ _
  · intro k hk
    rw [hcache]
    exact store_other _ _ _ _ hk
  · rw [hfs]
    exact saveWebpage_calls env.fsEnv w.fs p worker.URL
  · rw [hout, hsave]

/-- C9, on a read-only file system: the page is in the map although the file
could not be created, and `os.Create` was called once. -/
theorem handleWorker_save_error_witness :
    (handleWorker ⟨failTwice, fsReadOnly⟩ World.init ⟨"A", 3, true⟩ 0 5 9).cache "A"
      = some ⟨"X", 5⟩ ∧
    (handleWorker ⟨failTwice, fsReadOnly⟩ World.init ⟨"A", 3, true⟩ 0 5 9).fs.calls
      = [FsCall.create "cache/A.html"] := by
  have hd : (downloadWebpage failTwice 0 "A" 3).1 = Except.ok "X" := by
    unfold downloadWebpage
    rw [downloadLoop_success failTwice "A" 3 "X" 2 0 0 (by norm_num)
      (by intro i hi; interval_cases i <;> rfl) rfl]
  have h := handleWorker_save_error ⟨failTwice, fsReadOnly⟩ World.init ⟨"A", 3, true⟩ 0 5 9
    "X" "error creating file: read-only file system" hd rfl
  refine ⟨h.1, ?_⟩
  rw [h.2.2.1]
  rfl

/-! ## The map from URL to file path -/

theorem replaceChar_injOn (a b : Char) (ha : a ≠ '_' ∧ a ≠ '^') (hb : b ≠ '_' ∧ b ≠ '^')
    (h : replaceChar a = replaceChar b) : a = b := by
  unfold replaceChar at h
  obtain ⟨ha1, ha2⟩ := ha
  obtain ⟨hb1, hb2⟩ := hb
  split_ifs at h
  all_goals first
    | exact absurd h.symm hb1
    | exact absurd h.symm hb2
    | exact absurd h ha1
    | exact absurd h ha2
    | simp_all

theorem map_replaceChar_injOn :
    ∀ (xs ys : List Char), (∀ c ∈ xs, c ≠ '_' ∧ c ≠ '^') → (∀ c ∈ ys, c ≠ '_' ∧ c ≠ '^') →
      xs.map replaceChar = ys.map replaceChar → xs = ys := by
  intro xs
  induction xs with
  | nil =>
    intro ys _ _ h
    cases ys with
    | nil => rfl
    | cons y ys => simp at h
  | cons x xs ih =>
    intro ys hx hy h
    cases ys with
    | nil => simp at h
    | cons y ys =>
      simp only [List.map_cons, List.cons.injEq] at h
      have hxy := replaceChar_injOn x y (hx x (List.mem_cons_self _ _))
        (hy y (List.mem_cons_self _ _)) h.1
      have hrest := ih ys (fun c hc => hx c (List.mem_cons_of_mem _ hc))
        (fun c hc => hy c (List.mem_cons_of_mem _ hc)) h.2
      rw [hxy, hrest]

theorem savePath_eq_iff (u v : String) :
    savePath u = savePath v ↔ u.data.map replaceChar = v.data.map replaceChar := by
  unfold savePath replacerReplace
  constructor
  · intro h
    have hd := congrArg String.data h
    simp only [String.data_append] at hd
    exact List.append_cancel_right (List.append_cancel_left hd)
  · intro h
    rw [h]

/-- C10, as stated, fails: the URLs `http://a.com/b` and `http://a.com_b`
are different and are saved under the same path, so saving the second
overwrites the file of the first. -/
theorem savePath_collision :
    "http://a.com/b" ≠ "http://a.com_b" ∧
    savePath "http://a.com/b" = savePath "http://a.com_b" ∧
    (saveWebpage fsHealthy (saveWebpage fsHealthy World.init.fs "first" "http://a.com/b").2
        "second" "http://a.com_b").2.files (savePath "http://a.com/b") = some "second" := by
  refine ⟨by decide, by decide, ?_⟩
  have hp : savePath "http://a.com/b" = savePath "http://a.com_b" := by decide
  rw [hp]
  simp [saveWebpage, fsHealthy, setFile]

/-- C10, amended: two distinct URLs that contain neither `_` nor `^` are
saved under different paths, and saving one of them leaves the file of the
other as it was. -/
theorem savePath_injOn (u v : String) (hne : u ≠ v)
    (hu : ∀ c ∈ u.data, c ≠ '_' ∧ c ≠ '^') (hv : ∀ c ∈ v.data, c ≠ '_' ∧ c ≠ '^') :
    savePath u ≠ savePath v ∧
    ∀ (fe : FsEnv) (fs : FileSystem) (p : String),
      (saveWebpage fe fs p u).2.files (savePath v) = fs.files (savePath v) := by
  have hpath : savePath u ≠ savePath v := by
    intro h
    have hd := map_replaceChar_injOn u.data v.data hu hv ((savePath_eq_iff u v).1 h)
    exact hne (String.ext hd)
  exact ⟨hpath, fun fe fs p => saveWebpage_other_file fe fs p u (savePath v) (Ne.symm hpath)⟩

/-- C10 amended, on the URLs `http://a.com/b` and `http://a.com/c`. -/
theorem savePath_injOn_witness :
    savePath "http://a.com/b" ≠ savePath "http://a.com/c" ∧
    (saveWebpage fsHealthy World.init.fs "first" "http://a.com/b").2.files
      (savePath "http://a.com/c") = World.init.fs.files (savePath "http://a.com/c") :=
  ⟨(savePath_injOn "http://a.com/b" "http://a.com/c" (by decide) (by decide) (by decide)).1,
   (savePath_injOn "http://a.com/b" "http://a.com/c" (by decide) (by decide) (by decide)).2
      fsHealthy World.init.fs "first"⟩

end Server
